import Mathlib

/-!
Verification of the AI-request orchestration layer of the Free-Ed repository:
a cache / backoff-retry / error-classification engine around a remote
completion call.  The definitions below are a shallow embedding of the
TypeScript source (the `ContentService` of `src/unnamed/part_004`, which is
the standalone module also duplicated inside `src/src/data/mockData.ts`, and
the `generateContent`/`generatePrompt` variant of
`src/src/services/aiService.ts`).  JavaScript strings are modelled as Lean
`String`/`List Char`; `Date.now()` timestamps as `Nat` (milliseconds);
thrown errors as `Except`; the asynchronous remote endpoint as an oracle
mapping the attempt number and the user prompt to an outcome.
-/

set_option maxRecDepth 8192

/-! ## JavaScript string primitives used by the source -/

/-- Whether `p` is a prefix of `cs` (character-wise). -/
def isPrefixChars : List Char → List Char → Bool
  | [], _ => true
  | _ :: _, [] => false
  | a :: p, b :: cs => a = b && isPrefixChars p cs

/-- Whether `needle` occurs as a contiguous substring of `cs`.
Model of JavaScript `String.prototype.includes`. -/
def containsSub (needle : List Char) : List Char → Bool
  | [] => isPrefixChars needle []
  | c :: rest => isPrefixChars needle (c :: rest) || containsSub needle rest

/-- JavaScript `haystack.includes(needle)`. -/
def jsIncludes (haystack needle : String) : Bool :=
  containsSub needle.data haystack.data

/-- JavaScript `String.prototype.indexOf` for a single character:
index of first occurrence, `-1` if absent. -/
def indexOfChar : List Char → Char → Int
  | [], _ => -1
  | c :: rest, t =>
    if c = t then 0
    else
      let r := indexOfChar rest t
      if r < 0 then -1 else r + 1

/-- JavaScript `String.prototype.lastIndexOf` for a single character:
index of last occurrence, `-1` if absent. -/
def lastIndexOfChar : List Char → Char → Int
  | [], _ => -1
  | c :: rest, t =>
    let r := lastIndexOfChar rest t
    if 0 ≤ r then r + 1 else if c = t then 0 else -1

/-- Normalize a (possibly negative) JavaScript `slice` index against a
string of length `len`: negative indices count from the end, and the
result is clamped into `[0, len]`. -/
def normIdx (len : Nat) (i : Int) : Nat :=
  if i < 0 then (max ((len : Int) + i) 0).toNat else min i.toNat len

/-- JavaScript `cs.slice(start, stop)` (the two-argument form). -/
def jsSlice (cs : List Char) (start stop : Int) : List Char :=
  let f := normIdx cs.length start
  let t := normIdx cs.length stop
  (cs.drop f).take (t - f)

/-- The ASCII whitespace characters removed by `String.prototype.trim`
(the source never feeds it non-ASCII whitespace). -/
def isJsWs (c : Char) : Bool :=
  c = ' ' || c = '\t' || c = '\n' || c = '\r' || c = '\x0b' || c = '\x0c'

/-- JavaScript `String.prototype.trim`. -/
def jsTrim (cs : List Char) : List Char :=
  ((cs.dropWhile isJsWs).reverse.dropWhile isJsWs).reverse

/-- Index of the first occurrence of `pat` in a character list. -/
def findSub (pat : List Char) : List Char → Option Nat
  | [] => if isPrefixChars pat [] then some 0 else none
  | c :: rest =>
    if isPrefixChars pat (c :: rest) then some 0
    else (findSub pat rest).map (· + 1)

/-- The three-backtick code-fence delimiter (backtick is `\x60`). -/
def fenceTicks : List Char := ['\x60', '\x60', '\x60']

/-- One pass of `text.replace(/\x60\x60\x60[\s\S]*?\x60\x60\x60/g, '')`:
repeatedly drop the leftmost fenced block (opening fence, shortest body,
closing fence).  If the first opening fence has no closing fence then no
later position can start a match either, so the text is left unchanged.
`fuel` only bounds the recursion; `cs.length` is always enough since each
removed block spans at least six characters. -/
def stripFencesGo : Nat → List Char → List Char
  | 0, cs => cs
  | fuel + 1, cs =>
    match findSub fenceTicks cs with
    | none => cs
    | some i =>
      let afterOpen := cs.drop (i + 3)
      match findSub fenceTicks afterOpen with
      | none => cs
      | some k => cs.take i ++ stripFencesGo fuel (afterOpen.drop (k + 3))

/-- Strip fenced code blocks, as the source's
`text.replace(/\x60\x60\x60[\s\S]*?\x60\x60\x60/g, '')`. -/
def stripFences (cs : List Char) : List Char :=
  stripFencesGo cs.length cs

/-- ECMAScript `GetSubstitution` applied to a replacement string with no
capture groups: `$$` yields `$`, `$&` the matched text, a backtick after
`$` the text before the match, `$'` the text after the match; any other
`$`-sequence (in particular `$` followed by a digit, since the pattern has
no capture groups) is literal. -/
def getSubstitution (matched before after : List Char) : List Char → List Char
  | [] => []
  | '$' :: c :: rest =>
    if c = '$' then '$' :: getSubstitution matched before after rest
    else if c = '&' then matched ++ getSubstitution matched before after rest
    else if c = '\x60' then before ++ getSubstitution matched before after rest
    else if c = '\'' then after ++ getSubstitution matched before after rest
    else '$' :: getSubstitution matched before after (c :: rest)
  | c :: rest => c :: getSubstitution matched before after rest

/-- Global replacement `orig.replace(/pat/g, repl)` for a literal pattern
`pat`, including the `$`-substitution semantics of the replacement string.
`pos` is the absolute position of `suffix` inside `orig`; `fuel` bounds the
recursion (`suffix.length + 1` always suffices for the non-empty patterns
the source uses). -/
def jsReplaceGo (pat repl orig : List Char) : Nat → Nat → List Char → List Char
  | _, 0, suffix => suffix
  | pos, fuel + 1, suffix =>
    match suffix with
    | [] => []
    | c :: rest =>
      if isPrefixChars pat suffix && !pat.isEmpty then
        getSubstitution pat (orig.take pos) (orig.drop (pos + pat.length)) repl ++
          jsReplaceGo pat repl orig (pos + pat.length) fuel (suffix.drop pat.length)
      else c :: jsReplaceGo pat repl orig (pos + 1) fuel rest

/-- JavaScript `s.replace(/pat/g, repl)` with a literal pattern. -/
def jsReplaceAll (s pat repl : String) : String :=
  String.mk (jsReplaceGo pat.data repl.data s.data 0 (s.data.length + 1) s.data)

/-! ## A model of `JSON.parse` (syntactic validity and shape)

A recursive-descent parser for the JSON grammar (RFC 8259), used to model
the `JSON.parse(out)` call inside `sanitize`.  Numeric values are kept as
their lexemes: the source only uses `JSON.parse` for its success/failure
and for no other observation.  All functions are fuel-bounded for
termination; `jsonFuel` below is always ample for its input. -/

/-- A parsed JSON value (numbers kept as lexemes, object keys as raw
character lists). -/
inductive Json where
  | null : Json
  | bool (b : Bool) : Json
  | num (lexeme : List Char) : Json
  | str (s : List Char) : Json
  | arr (elems : List Json) : Json
  | obj (members : List (List Char × Json)) : Json
deriving Repr

/-- The JSON insignificant-whitespace characters. -/
def isJsonWs (c : Char) : Bool :=
  c = ' ' || c = '\t' || c = '\n' || c = '\r'

/-- Skip JSON whitespace. -/
def skipWs (cs : List Char) : List Char :=
  cs.dropWhile isJsonWs

/-- Is `c` one of the single-character JSON string escapes? -/
def isSimpleEscape (c : Char) : Bool :=
  c = '"' || c = '\\' || c = '/' || c = 'b' || c = 'f' || c = 'n' || c = 'r' || c = 't'

/-- Is `c` a hexadecimal digit? -/
def isHexDigit (c : Char) : Bool :=
  c.isDigit || ('a' ≤ c && c ≤ 'f') || ('A' ≤ c && c ≤ 'F')

/-- Parse the body of a JSON string after the opening quote; returns the
(unescaped-as-written) content and the remainder after the closing quote. -/
def parseStrBody : Nat → List Char → Option (List Char × List Char)
  | 0, _ => none
  | _ + 1, [] => none
  | fuel + 1, c :: rest =>
    if c = '"' then some ([], rest)
    else if c = '\\' then
      match rest with
      | [] => none
      | e :: rest2 =>
        if isSimpleEscape e then
          (parseStrBody fuel rest2).map (fun p => (c :: e :: p.1, p.2))
        else if e = 'u' then
          let hex := rest2.take 4
          if hex.length = 4 && hex.all isHexDigit then
            (parseStrBody fuel (rest2.drop 4)).map
              (fun p => (c :: e :: hex ++ p.1, p.2))
          else none
        else none
    else if c.toNat < 0x20 then none
    else (parseStrBody fuel rest).map (fun p => (c :: p.1, p.2))

/-- Split off a maximal run of decimal digits. -/
def spanDigits (cs : List Char) : List Char × List Char :=
  (cs.takeWhile Char.isDigit, cs.dropWhile Char.isDigit)

/-- Parse a JSON number (grammar `-? (0 | [1-9][0-9]*) frac? exp?`),
returning its lexeme and the remainder. -/
def parseNum (cs : List Char) : Option (List Char × List Char) :=
  let (sign, cs1) : List Char × List Char :=
    match cs with
    | '-' :: r => (['-'], r)
    | _ => ([], cs)
  match cs1 with
  | [] => none
  | c :: rest =>
    let intPart : Option (List Char × List Char) :=
      if c = '0' then some ([c], rest)
      else if c.isDigit then
        let (ds, r) := spanDigits rest
        some (c :: ds, r)
      else none
    match intPart with
    | none => none
    | some (ip, afterInt) =>
      let (fracPart, afterFrac) : List Char × List Char :=
        match afterInt with
        | '.' :: r =>
          let (ds, r2) := spanDigits r
          if ds.isEmpty then ([], afterInt) else ('.' :: ds, r2)
        | _ => ([], afterInt)
      if fracPart.isEmpty && afterFrac ≠ afterInt then none
      else
        match afterFrac with
        | '.' :: _ => none
        | e :: r =>
          if e = 'e' || e = 'E' then
            let (sgn, r2) : List Char × List Char :=
              match r with
              | '+' :: rr => (['+'], rr)
              | '-' :: rr => (['-'], rr)
              | _ => ([], r)
            let (ds, r3) := spanDigits r2
            if ds.isEmpty then none
            else some (sign ++ ip ++ fracPart ++ e :: sgn ++ ds, r3)
          else some (sign ++ ip ++ fracPart, afterFrac)
        | [] => some (sign ++ ip ++ fracPart, afterFrac)

mutual

/-- Parse one JSON value (after skipping leading whitespace). -/
def parseVal : Nat → List Char → Option (Json × List Char)
  | 0, _ => none
  | fuel + 1, cs =>
    match skipWs cs with
    | [] => none
    | c :: rest =>
      if c = '[' then
        match parseArrItems fuel rest with
        | some (l, r) => some (.arr l, r)
        | none => none
      else if c = '\x7b' then
        match parseObjItems fuel rest with
        | some (l, r) => some (.obj l, r)
        | none => none
      else if c = '"' then
        match parseStrBody fuel rest with
        | some (s, r) => some (.str s, r)
        | none => none
      else if c = 'n' then
        if isPrefixChars ['u', 'l', 'l'] rest then some (.null, rest.drop 3) else none
      else if c = 't' then
        if isPrefixChars ['r', 'u', 'e'] rest then some (.bool true, rest.drop 3) else none
      else if c = 'f' then
        if isPrefixChars ['a', 'l', 's', 'e'] rest then some (.bool false, rest.drop 4) else none
      else if c = '-' || c.isDigit then
        match parseNum (c :: rest) with
        | some (lx, r) => some (.num lx, r)
        | none => none
      else none

/-- Parse the items of a JSON array after the opening bracket. -/
def parseArrItems : Nat → List Char → Option (List Json × List Char)
  | 0, _ => none
  | fuel + 1, cs =>
    match skipWs cs with
    | [] => none
    | c :: rest =>
      if c = ']' then some ([], rest)
      else
        match parseVal fuel cs with
        | none => none
        | some (v, r1) =>
          match parseArrTail fuel r1 with
          | some (vs, r2) => some (v :: vs, r2)
          | none => none

/-- After an array element: either the closing bracket or a comma and a
further element (trailing commas rejected, as in `JSON.parse`). -/
def parseArrTail : Nat → List Char → Option (List Json × List Char)
  | 0, _ => none
  | fuel + 1, cs =>
    match skipWs cs with
    | [] => none
    | c :: rest =>
      if c = ']' then some ([], rest)
      else if c = ',' then
        match parseVal fuel rest with
        | none => none
        | some (v, r1) =>
          match parseArrTail fuel r1 with
          | some (vs, r2) => some (v :: vs, r2)
          | none => none
      else none

/-- Parse one `"key" : value` object member. -/
def parseMember : Nat → List Char → Option ((List Char × Json) × List Char)
  | 0, _ => none
  | fuel + 1, cs =>
    match skipWs cs with
    | '"' :: rest =>
      match parseStrBody fuel rest with
      | some (k, r1) =>
        match skipWs r1 with
        | ':' :: r2 =>
          match parseVal fuel r2 with
          | some (v, r3) => some ((k, v), r3)
          | none => none
        | _ => none
      | none => none
    | _ => none

/-- Parse the members of a JSON object after the opening brace. -/
def parseObjItems : Nat → List Char → Option (List (List Char × Json) × List Char)
  | 0, _ => none
  | fuel + 1, cs =>
    match skipWs cs with
    | [] => none
    | c :: rest =>
      if c = '\x7d' then some ([], rest)
      else
        match parseMember fuel cs with
        | none => none
        | some (m, r1) =>
          match parseObjTail fuel r1 with
          | some (ms, r2) => some (m :: ms, r2)
          | none => none

/-- After an object member: either the closing brace or a comma and a
further member. -/
def parseObjTail : Nat → List Char → Option (List (List Char × Json) × List Char)
  | 0, _ => none
  | fuel + 1, cs =>
    match skipWs cs with
    | [] => none
    | c :: rest =>
      if c = '\x7d' then some ([], rest)
      else if c = ',' then
        match parseMember fuel rest with
        | none => none
        | some (m, r1) =>
          match parseObjTail fuel r1 with
          | some (ms, r2) => some (m :: ms, r2)
          | none => none
      else none

end

/-- Fuel that is always sufficient for `parseVal` on `cs`: every recursive
call either consumes at least one input character or strictly descends
into the input. -/
def jsonFuel (cs : List Char) : Nat := 4 * cs.length + 8

/-- Model of `JSON.parse` on a character list: parse one value and require
that only whitespace remains. -/
def jsonParseL (cs : List Char) : Option Json :=
  match parseVal (jsonFuel cs) cs with
  | some (v, rest) => if skipWs rest = [] then some v else none
  | none => none

/-- Does `s` parse (via `JSON.parse`) as a JSON array? -/
def isJsonArrayString (s : String) : Bool :=
  match jsonParseL s.data with
  | some (.arr _) => true
  | _ => false

/-! ## Data model of the content service (`src/unnamed/part_004`) -/

/-- The `PromptType` union of the source. -/
inductive PromptType where
  | explainSimply
  | visualGuide
  | interactivePractice
  | realApplications
  | deepDive
  | examMastery
  | conceptMap
  | commonMistakes
  | followUp
  | followUpAnswer
deriving Repr, DecidableEq

/-- The string literal each `PromptType` stands for. -/
def PromptType.str : PromptType → String
  | .explainSimply => "explain-simply"
  | .visualGuide => "visual-guide"
  | .interactivePractice => "interactive-practice"
  | .realApplications => "real-applications"
  | .deepDive => "deep-dive"
  | .examMastery => "exam-mastery"
  | .conceptMap => "concept-map"
  | .commonMistakes => "common-mistakes"
  | .followUp => "follow-up"
  | .followUpAnswer => "follow-up-answer"

/-- `interface CacheEntry { content: string; timestamp: number; }` -/
structure CacheEntry where
  content : String
  timestamp : Nat
deriving Repr, DecidableEq

/-- The cache's backing `Map<string, CacheEntry>`, as an association list
with at most one binding per key. -/
abbrev Store := List (String × CacheEntry)

/-- `Map.get`: the entry bound to `key`, if any. -/
def storeGet : Store → String → Option CacheEntry
  | [], _ => none
  | (k, e) :: rest, key => if k = key then some e else storeGet rest key

/-- `Map.delete`: remove the binding for `key` (no-op when absent). -/
def storeDelete (st : Store) (key : String) : Store :=
  st.filter (fun p => p.1 ≠ key)

/-- `Map.set`: bind `key` to `e`, replacing any previous binding. -/
def storeSet (st : Store) (key : String) (e : CacheEntry) : Store :=
  (key, e) :: storeDelete st key

/-- `CacheService.get`: return the cached content unless the entry is
absent or older than `ttlMs`; a stale or absent entry is deleted and
`null` returned.  `now` stands for `Date.now()`. -/
def CacheService.get (ttlMs now : Nat) (st : Store) (key : String) :
    Option String × Store :=
  match storeGet st key with
  | none => (none, storeDelete st key)
  | some e =>
    if now - e.timestamp > ttlMs then (none, storeDelete st key)
    else (some e.content, st)

/-- `CacheService.set`: store `content` under `key` stamped with `now`. -/
def CacheService.set (now : Nat) (st : Store) (key content : String) : Store :=
  storeSet st key ⟨content, now⟩

/-- A duck-typed JavaScript error as the fetcher observes it: a `message`
string and an optional numeric `status`. -/
structure JsError where
  message : String
  status : Option Nat
deriving Repr, DecidableEq

/-- `const RETRYABLE = new Set([408, 429, 500, 502, 503, 504])`. -/
def RETRYABLE : List Nat := [408, 429, 500, 502, 503, 504]

/-- `const isRetryable = (err) => RETRYABLE.has(err?.status)`
(an absent status is never in the set). -/
def isRetryable (err : JsError) : Bool :=
  match err.status with
  | some s => RETRYABLE.contains s
  | none => false

/-- The `Errors` message table of `part_004`. -/
def Errors.invalidKey : String :=
  "Invalid API key. Please verify your OpenAI configuration."

/-- Rate-limit user message. -/
def Errors.rateLimit : String := "Rate limit reached. Try again later."

/-- Quota user message. -/
def Errors.quotaExceeded : String := "Quota exceeded. Check billing or upgrade."

/-- Generic fallback user message. -/
def Errors.generic : String := "Failed to generate content. Please retry later."

/-- `formatError`: classify a failure into one of the four user-facing
messages, first match wins. -/
def formatError (err : JsError) : String :=
  if jsIncludes err.message "API key" then Errors.invalidKey
  else if err.status = some 429 then Errors.rateLimit
  else if jsIncludes err.message "quota" then Errors.quotaExceeded
  else Errors.generic

/-! ## Prompt templates (`part_004`, each a template literal with `.trim()`) -/

/-- `explainSimplyTemplate` (LaTeX braces written as `\x7b`/`\x7d`). -/
def explainSimplyTemplate : String := String.mk (jsTrim "
Generate an IIT-JEE–style explanation of **%TOPIC%**. Use exactly this Markdown outline:

## Overview
A concise definition and why it matters.

## Analogy
A simple real-world analogy.

## Core Concepts
- Concept: description
(3–5 bullet points)

## Formula & Derivation
Use display math:
$$
\\mathcal\x7bE\x7d = -\\frac\x7bd\\Phi\x7d\x7bdt\x7d
$$
Explain each symbol below.

## Examples
1. First practical example with step-by-step solution.
2. Second illustrative example.

## Takeaways
- Key point 1
- Key point 2

Return only the raw Markdown, with ## headings, - bullets, numbered lists, and $$…$$ math. No extra formatting instructions.
".data)

/-- `visualGuideTemplate`. -/
def visualGuideTemplate : String := String.mk (jsTrim "
Guide '%TOPIC%' through a mental diagram in Markdown:

## Visual Summary
…

## Elements
…

## Flow
…

## Sketch
…

## Formula Notes
…

Return raw Markdown only.
".data)

/-- `interactivePracticeTemplate`. -/
def interactivePracticeTemplate : String := String.mk (jsTrim "
Create an interactive practice session for '%TOPIC%':

## Warm-up
…

## Problems
1. Easy: …
2. Medium: …
3. Hard: …

## Formula Review
…

## Reflection
…

Return raw Markdown only.
".data)

/-- `realApplicationsTemplate`. -/
def realApplicationsTemplate : String := String.mk (jsTrim "
List 4–6 real-world applications of '%TOPIC%' in Markdown:

## Application 1
…

## Application 2
…

…

Return raw Markdown only.
".data)

/-- `deepDiveTemplate`. -/
def deepDiveTemplate : String := String.mk (jsTrim "
Deep dive into '%TOPIC%':

## Theory
…

## Math
Use inline equations like $E=mc^2$.

## Edge Cases
…

## Research
…

Return raw Markdown only.
".data)

/-- `examMasteryTemplate`. -/
def examMasteryTemplate : String := String.mk (jsTrim "
Exam mastery for '%TOPIC%':

## Syllabus
…

## Formulas
…

## Questions
…

## Strategies
…

## Pitfalls
…

Return raw Markdown only.
".data)

/-- `conceptMapTemplate`. -/
def conceptMapTemplate : String := String.mk (jsTrim "
Concept map for '%TOPIC%':

## Prerequisites
…

## Related Topics
…

## Advanced Uses
…

## Study Path
…

Return raw Markdown only.
".data)

/-- `commonMistakesTemplate`. -/
def commonMistakesTemplate : String := String.mk (jsTrim "
Top 5 misconceptions in '%TOPIC%':

1. Mistake: …
   - Why wrong: …
   - Correction: …

… repeat for each …

Return raw Markdown only.
".data)

/-- `followUpTemplate` (JSON braces written as `\x7b`/`\x7d`). -/
def followUpTemplate : String := String.mk (jsTrim "
Return a pure JSON array of 5 follow-up questions for '%TOPIC%'.
Example: [\x7b\"id\":\"q1\",\"question\":\"…\",\"type\":\"conceptual\"\x7d,…]
No Markdown, no code fences.
".data)

/-- `followUpAnswerTemplate`. -/
def followUpAnswerTemplate : String := String.mk (jsTrim "
Answer a follow-up question on '%TOPIC%':

## Explanation
…

## Formula
…

## Example
…

## Resources
…

Return raw Markdown only.
".data)

/-- `const promptTemplates: Record<PromptType, string>`. -/
def promptTemplates : PromptType → String
  | .explainSimply => explainSimplyTemplate
  | .visualGuide => visualGuideTemplate
  | .interactivePractice => interactivePracticeTemplate
  | .realApplications => realApplicationsTemplate
  | .deepDive => deepDiveTemplate
  | .examMastery => examMasteryTemplate
  | .conceptMap => conceptMapTemplate
  | .commonMistakes => commonMistakesTemplate
  | .followUp => followUpTemplate
  | .followUpAnswer => followUpAnswerTemplate

/-! ## Sanitization, the remote call, the retry loop and `generate` -/

/-- `sanitize(text, type)`: strip fenced code blocks and trim; for the
`follow-up` kind additionally slice from the first `[` to the last `]` and
keep the slice only if `JSON.parse` accepts it, else return `'[]'`. -/
def sanitize (text : String) (type : PromptType) : String :=
  let out := jsTrim (stripFences text.data)
  if type = .followUp then
    let s := indexOfChar out '['
    let e := lastIndexOfChar out ']' + 1
    let sliced := jsSlice out s e
    match jsonParseL sliced with
    | some _ => String.mk sliced
    | none => "[]"
  else String.mk out

/-- One observable outcome of the remote completion endpoint: either the
transport succeeds with a `choices` array (each choice's
`message.content`, absent modelled as `none`), or it fails with a
duck-typed error. -/
inductive RemoteOutcome where
  | success (choices : List (Option String))
  | failure (err : JsError)

/-- `resp.choices?.[0]?.message?.content` — the first choice's content. -/
def firstContent : List (Option String) → Option String
  | [] => none
  | c :: _ => c

/-- `new Error('No content returned')`: a plain `Error` has no `status`. -/
def noContentError : JsError := { message := "No content returned", status := none }

/-- The body of the `call` closure: unwrap the outcome, raising
`noContentError` when the transport succeeded but the payload is absent or
empty (`!txt`). -/
def attemptCall (o : RemoteOutcome) : Except JsError String :=
  match o with
  | .failure e => .error e
  | .success choices =>
    match firstContent choices with
    | some s => if s = "" then .error noContentError else .ok s
    | none => .error noContentError

/-- The observable trace of one `backOff(call, opts)` run: its result, how
many attempts were made, and the inter-attempt delays that were awaited. -/
structure FetchTrace where
  result : Except JsError String
  attempts : Nat
  delays : List Nat
deriving Repr

/-- The delay the `exponential-backoff` package awaits after failing
attempt `attemptNo`: the starting delay doubled (`timeMultiple`) per prior
retry, capped at `maxDelay`. -/
def backOffDelay (startingDelay timeMultiple maxDelay attemptNo : Nat) : Nat :=
  min maxDelay (startingDelay * timeMultiple ^ (attemptNo - 1))

/-- Modelled from the spec: the retry loop of the external
`exponential-backoff` npm package as configured at the call site
(first attempt immediate; after a failed attempt, retry only while
attempts remain and `retryP` accepts the error; exhaustion or a
non-retryable failure surfaces the last error).  `remaining` counts the
attempts still allowed including the current one; the `remaining = 0` case
is unreachable because the source fixes `numOfAttempts = 5`. -/
def backOffAux (retryP : JsError → Bool) (startingDelay timeMultiple maxDelay : Nat)
    (request : Nat → Except JsError String) : Nat → Nat → FetchTrace
  | _, 0 => ⟨.error { message := "", status := none }, 0, []⟩
  | attemptNo, remaining + 1 =>
    match request attemptNo with
    | .ok s => ⟨.ok s, 1, []⟩
    | .error e =>
      if 0 < remaining && retryP e then
        let t := backOffAux retryP startingDelay timeMultiple maxDelay request
          (attemptNo + 1) remaining
        ⟨t.result, t.attempts + 1,
          backOffDelay startingDelay timeMultiple maxDelay attemptNo :: t.delays⟩
      else ⟨.error e, 1, []⟩

/-- `backOff(call, { numOfAttempts: 5, startingDelay: 2000, timeMultiple:
2, maxDelay: 20000, retry: isRetryable })`. -/
def runBackOff (request : Nat → Except JsError String) : FetchTrace :=
  backOffAux isRetryable 2000 2 20000 request 1 5

/-- `new CacheService(24 * 3600 * 1000)` — the 24-hour TTL. -/
def TTL_MS : Nat := 24 * 3600 * 1000

/-- `this.model` default. -/
def ContentService.model : String := "gpt-4o-mini"

/-- `this.systemMsg` default. -/
def ContentService.systemMsg : String :=
  "You are an expert IIT-JEE tutor. Always output in Markdown with headings, bullet lists, and LaTeX only."

/-- `ContentService.key(topic, type)`. -/
def ContentService.key (topic : String) (type : PromptType) : String :=
  topic ++ "::" ++ type.str

/-- `ContentService.buildPrompt(topic, type) =
promptTemplates[type].replace(/%TOPIC%/g, topic)`. -/
def ContentService.buildPrompt (topic : String) (type : PromptType) : String :=
  jsReplaceAll (promptTemplates type) "%TOPIC%" topic

/-- The observable effects of one `generate` call: the returned string or
the thrown (already formatted) error message, the cache afterwards, the
number of remote attempts, the delays awaited, and the user prompt sent on
each attempt. -/
structure GenResult where
  out : Except String String
  cache : Store
  remoteCalls : Nat
  delays : List Nat
  promptsSent : List String
deriving Repr

/-- `ContentService.generate(topic, type)`.  `env` is the remote endpoint:
attempt number and user prompt to outcome; `now` stands for `Date.now()`
(a single timestamp for the call).  Note the JavaScript truthiness of
`if (cached) return cached`: a cached empty string is treated as a miss. -/
def ContentService.generate (env : Nat → String → RemoteOutcome) (now : Nat)
    (st : Store) (topic : String) (type : PromptType) : GenResult :=
  let cacheKey := ContentService.key topic type
  let got := CacheService.get TTL_MS now st cacheKey
  let st1 := got.2
  let hit : Option String :=
    match got.1 with
    | some s => if s = "" then none else some s
    | none => none
  match hit with
  | some s => ⟨.ok s, st1, 0, [], []⟩
  | none =>
    let userPrompt := ContentService.buildPrompt topic type
    let t := runBackOff (fun n => attemptCall (env n userPrompt))
    match t.result with
    | .ok raw =>
      let result := sanitize raw type
      ⟨.ok result, CacheService.set now st1 cacheKey result,
        t.attempts, t.delays, List.replicate t.attempts userPrompt⟩
    | .error e =>
      ⟨.error (formatError e), st1, t.attempts, t.delays,
        List.replicate t.attempts userPrompt⟩

/-! ## The `generateContent` variant (`src/src/services/aiService.ts`)

A sibling module with the same cache/retry design: `:`-separated cache
keys, `generatePrompt` templates interpolating the topic directly, a
fallback to the `explain-simply` template for unknown prompt types, and no
post-fetch sanitization (for `follow-up` it returns `result || '[]'`). -/

/-- `CACHE_EXPIRY = 24 * 60 * 60 * 1000`. -/
def CACHE_EXPIRY : Nat := 24 * 60 * 60 * 1000

/-- `getCacheKey(topic, promptType)`. -/
def getCacheKey (topic promptType : String) : String :=
  topic ++ ":" ++ promptType

/-- `getFromCache`: `null` when absent; delete-and-`null` when expired. -/
def getFromCache (st : Store) (now : Nat) (topic promptType : String) :
    Option String × Store :=
  let key := getCacheKey topic promptType
  match storeGet st key with
  | none => (none, st)
  | some e =>
    if now - e.timestamp > CACHE_EXPIRY then (none, storeDelete st key)
    else (some e.content, st)

/-- `saveToCache`. -/
def saveToCache (st : Store) (now : Nat) (topic promptType content : String) : Store :=
  storeSet st (getCacheKey topic promptType) ⟨content, now⟩

/-- `isRetryableError`: `[408, 429, 500, 502, 503, 504].includes(error?.status)`. -/
def isRetryableError (err : JsError) : Bool :=
  match err.status with
  | some s => [408, 429, 500, 502, 503, 504].contains s
  | none => false

/-- `getErrorMessage`, the four-way classifier of this variant. -/
def getErrorMessage (err : JsError) : String :=
  if jsIncludes err.message "API key" then
    "Invalid API key. Please check your OpenAI API key configuration."
  else if err.status = some 429 then
    "API rate limit exceeded. Please try again in a few minutes. If this persists, consider upgrading your OpenAI account."
  else if jsIncludes err.message "quota" then
    "API quota exceeded. Please check your OpenAI account billing status or upgrade your plan."
  else "Failed to generate content. Please try again later."

/-- The ten kind identifiers of the `promptTemplates` object literal of
`generatePrompt`. -/
def definedPromptTypes : List String :=
  ["explain-simply", "visual-guide", "interactive-practice", "real-applications",
   "deep-dive", "exam-mastery", "concept-map", "common-mistakes",
   "follow-up", "follow-up-answer"]

/-- The property names a plain JavaScript object literal inherits from
`Object.prototype`: a bracket access with one of these keys finds a truthy
function (or, for `__proto__`, the prototype object itself) on the
prototype chain rather than `undefined`. -/
def objectPrototypeMembers : List String :=
  ["constructor", "hasOwnProperty", "isPrototypeOf", "propertyIsEnumerable",
   "toLocaleString", "toString", "valueOf", "__proto__",
   "__defineGetter__", "__defineSetter__", "__lookupGetter__", "__lookupSetter__"]

/-- A value the lookup `promptTemplates[promptType]` can produce: one of
the object literal's own template strings, or a member inherited from
`Object.prototype`.  The inherited member (a function object) is kept
opaque: the source passes it on unchanged as the request content. -/
inductive PromptValue where
  | tmpl (s : String)
  | inherited (name : String)
deriving Repr, DecidableEq

/-- The `explain-simply` entry of the `promptTemplates` object literal,
also the target of the `||` fallback. -/
def explainSimplyPrompt (topic : String) : String :=
  "Explain " ++ topic ++ " in simple terms. Your response should include:
1. A clear, beginner-friendly explanation using everyday analogies
2. Step-by-step breakdown of key concepts
3. Real-world examples that illustrate the topic
4. Common applications or uses
5. Key takeaways for better understanding"

/-- The own properties of the `promptTemplates` object literal of
`generatePrompt` (ten keys, each a non-empty template string). -/
def ownTemplate (topic promptType : String) : Option String :=
  if promptType = "explain-simply" then some (explainSimplyPrompt topic)
  else if promptType = "visual-guide" then some
    ("Create a detailed textual description of " ++ topic ++ " that emphasizes visual learning. Include:
1. Clear descriptions of key visual elements and diagrams
2. Step-by-step explanations of processes or relationships
3. Comparisons to familiar visual concepts
4. Spatial relationships and interactions between components
5. Description of any important patterns or structures")
  else if promptType = "interactive-practice" then some
    ("Create an interactive learning session about " ++ topic ++ " with:
1. A warm-up question to assess basic understanding
2. 3 practice problems of increasing difficulty
3. Detailed step-by-step solutions
4. Common mistakes to avoid
5. Tips for problem-solving")
  else if promptType = "real-applications" then some
    ("Explain real-world applications of " ++ topic ++ ":
1. 4-5 practical examples where this concept is used
2. Detailed explanation of how it's implemented in each case
3. Impact and importance in various industries
4. Future potential applications
5. Benefits and limitations in real-world scenarios")
  else if promptType = "deep-dive" then some
    ("Provide an advanced explanation of " ++ topic ++ ":
1. Theoretical foundations and principles
2. Mathematical formulations and proofs
3. Edge cases and special considerations
4. Current research developments
5. Advanced applications and implications")
  else if promptType = "exam-mastery" then some
    ("Create a comprehensive exam preparation guide for " ++ topic ++ ":
1. Essential concepts and formulas
2. Common question types and solution strategies
3. Step-by-step problem-solving approaches
4. Practice questions with detailed solutions
5. Tips for avoiding common mistakes")
  else if promptType = "concept-map" then some
    ("Create a detailed description of how " ++ topic ++ " connects with other concepts:
1. Prerequisites and foundational concepts
2. Related topics and their relationships
3. Advanced applications and extensions
4. Interdisciplinary connections
5. Progressive learning path")
  else if promptType = "common-mistakes" then some
    ("Explain common misconceptions about " ++ topic ++ ":
1. List of frequent misunderstandings
2. Reasons why these misconceptions occur
3. Correct explanations with evidence
4. Examples highlighting the differences
5. Tips for avoiding these mistakes")
  else if promptType = "follow-up" then some
    ("Based on the topic \"" ++ topic ++ "\", generate 5 thought-provoking follow-up questions that would help deepen understanding. Return the response in this JSON format:
[
  \x7b
    \"id\": \"q1\",
    \"question\": \"What is...\",
    \"contentType\": \"explanation\"
  \x7d
]
Include a mix of theoretical understanding, practical applications, and problem-solving questions.")
  else if promptType = "follow-up-answer" then some
    ("Provide a comprehensive answer about " ++ topic ++ ":
1. Clear and detailed explanation
2. Relevant examples and applications
3. Connections to related concepts
4. Important formulas or principles
5. Further learning suggestions")
  else none

/-- `generatePrompt(topic, promptType)`: the lookup
`promptTemplates[promptType] || promptTemplates['explain-simply']`.
Property access first finds an own property — a non-empty template
string, truthy, so `||` keeps it; failing that, the prototype chain
yields a truthy `Object.prototype` member for the keys in
`objectPrototypeMembers`, which `||` also keeps; only a genuinely absent
key evaluates to `undefined`, which is falsy and fires the fallback to
the `explain-simply` template. -/
def generatePrompt (topic promptType : String) : PromptValue :=
  match ownTemplate topic promptType with
  | some s => .tmpl s
  | none =>
    if promptType ∈ objectPrototypeMembers then .inherited promptType
    else .tmpl (explainSimplyPrompt topic)

/-- `new Error('No content generated')` of this variant. -/
def noContentGenerated : JsError := { message := "No content generated", status := none }

/-- The body of `generateCompletion`: unwrap a remote outcome, raising
`noContentGenerated` when `!completion.choices[0]?.message?.content`. -/
def generateCompletion (o : RemoteOutcome) : Except JsError String :=
  match o with
  | .failure e => .error e
  | .success choices =>
    match firstContent choices with
    | some s => if s = "" then .error noContentGenerated else .ok s
    | none => .error noContentGenerated

/-- This variant's `backOff` call (same options, `retry: isRetryableError`). -/
def runBackOffContent (request : Nat → Except JsError String) : FetchTrace :=
  backOffAux isRetryableError 2000 2 20000 request 1 5

/-- The observable effects of one `generateContent` call. -/
structure GenResult2 where
  out : Except String String
  cache : Store
  remoteCalls : Nat
  delays : List Nat
deriving Repr

/-- `generateContent(topic, promptType)`: cache check (JavaScript truthy,
so a cached empty string is a miss), prompt build, retried fetch,
`if (result) saveToCache(...)`, and `result || '[]'` for `follow-up`. -/
def generateContent (env : Nat → PromptValue → RemoteOutcome) (now : Nat)
    (st : Store) (topic promptType : String) : GenResult2 :=
  let got := getFromCache st now topic promptType
  let st1 := got.2
  let hit : Option String :=
    match got.1 with
    | some s => if s = "" then none else some s
    | none => none
  match hit with
  | some s => ⟨.ok s, st1, 0, []⟩
  | none =>
    let prompt := generatePrompt topic promptType
    let t := runBackOffContent (fun n => generateCompletion (env n prompt))
    match t.result with
    | .ok result =>
      let st2 := if result = "" then st1 else saveToCache st1 now topic promptType result
      let outv :=
        if promptType = "follow-up" then (if result = "" then "[]" else result)
        else result
      ⟨.ok outv, st2, t.attempts, t.delays⟩
    | .error e => ⟨.error (getErrorMessage e), st1, t.attempts, t.delays⟩

/-! ## Sanity checks: concrete evaluations of the embedded definitions -/

example : jsonParseL "[]".data = some (.arr []) := rfl
example :
    jsonParseL " [1, \"a\", \x7b\"k\": null\x7d, true] ".data =
      some (.arr [.num ['1'], .str ['a'], .obj [(['k'], .null)], .bool true]) := rfl
example : jsonParseL "".data = none := rfl
example : jsonParseL "]".data = none := rfl
example : jsonParseL "[1,]".data = none := rfl
example : jsonParseL "01".data = none := rfl
example : jsonParseL "sorry".data = none := rfl
example : isJsonArrayString "[\x7b\"id\":\"q1\"\x7d]" = true := by decide
example : isJsonArrayString "\x7b\"id\":\"q1\"\x7d" = false := by decide

example : ContentService.key "Ohm's Law" .explainSimply = "Ohm's Law::explain-simply" := by decide
example : sanitize "sorry, I can't help" .followUp = "[]" := by decide
example : sanitize "hello" .deepDive = "hello" := by decide
example :
    (ContentService.generate (fun _ _ => .success [some "hello"]) 0 [] "t" .deepDive).out =
      Except.ok "hello" := rfl
example :
    (ContentService.generate (fun _ _ => .failure ⟨"boom", some 400⟩) 0 [] "t" .deepDive).remoteCalls = 1 := by
  decide
example :
    (ContentService.generate (fun _ _ => .failure ⟨"hot", some 429⟩) 0 [] "t" .deepDive).remoteCalls = 5 := by
  decide
example :
    (ContentService.generate (fun _ _ => .failure ⟨"hot", some 429⟩) 0 [] "t" .deepDive).delays =
      [2000, 4000, 8000, 16000] := by decide

example : getCacheKey "kinematics" "deep-dive" = "kinematics:deep-dive" := by decide
example :
    (generateContent (fun _ _ => .success [some "hi"]) 0 [] "t" "mystery").out =
      Except.ok "hi" := rfl
example :
    generatePrompt "X" "mystery-kind" = generatePrompt "X" "explain-simply" := by decide

example : jsReplaceAll "a %TOPIC% b %TOPIC%" "%TOPIC%" "x" = "a x b x" := by decide
example : jsReplaceAll "a %TOPIC% b" "%TOPIC%" "$&" = "a %TOPIC% b" := by decide
example : jsSlice "abcdef".data (-1) 6 = ['f'] := by decide
example : jsTrim "  hi \n".data = ['h', 'i'] := by decide
example : stripFences "a\x60\x60\x60code\x60\x60\x60b".data = ['a', 'b'] := by decide

example : jsIncludes "rate limit hit" "limit" = true := by decide

/-! ## Store and retry-loop lemmas -/

theorem storeGet_delete (st : Store) (k0 k : String) :
    storeGet (storeDelete st k0) k = if k = k0 then none else storeGet st k := by
  induction st with
  | nil => simp [storeDelete, storeGet]
  | cons p rest ih =>
    obtain ⟨pk, pe⟩ := p
    by_cases hp : pk = k0
    · subst hp
      have hd : storeDelete ((pk, pe) :: rest) pk = storeDelete rest pk := by
        simp [storeDelete, List.filter_cons]
      rw [hd, ih]
      by_cases hk : k = pk
      · simp [hk]
      · simp [hk, storeGet, Ne.symm hk]
    · have hd : storeDelete ((pk, pe) :: rest) k0 = (pk, pe) :: storeDelete rest k0 := by
        simp [storeDelete, List.filter_cons, hp]
      rw [hd]
      simp only [storeGet]
      by_cases hpk : pk = k
      · subst hpk
        simp [hp]
      · simp [hpk, ih]

theorem storeGet_delete_some {st : Store} {k0 k : String} {e : CacheEntry}
    (h : storeGet (storeDelete st k0) k = some e) : storeGet st k = some e := by
  rw [storeGet_delete] at h
  by_cases hk : k = k0
  · simp [hk] at h
  · simpa [hk] using h

theorem storeGet_delete_other {st : Store} {k0 k : String} (hk : k ≠ k0) :
    storeGet (storeDelete st k0) k = storeGet st k := by
  rw [storeGet_delete]
  simp [hk]

theorem storeGet_set_self (st : Store) (k : String) (e : CacheEntry) :
    storeGet (storeSet st k e) k = some e := by
  simp [storeSet, storeGet]

theorem storeGet_set_other {k0 k : String} (hk : k ≠ k0) (st : Store) (e : CacheEntry) :
    storeGet (storeSet st k0 e) k = storeGet st k := by
  have : k0 ≠ k := fun hcontra => hk hcontra.symm
  simp [storeSet, storeGet, this, storeGet_delete_other hk]

theorem backOffAux_attempts_pos (retryP : JsError → Bool) (sd tm md : Nat)
    (request : Nat → Except JsError String) (attemptNo remaining : Nat)
    (h : 0 < remaining) :
    0 < (backOffAux retryP sd tm md request attemptNo remaining).attempts := by
  match remaining, h with
  | r + 1, _ =>
    simp only [backOffAux]
    cases request attemptNo with
    | ok s => simp
    | error e =>
      by_cases hc : (0 < r && retryP e) = true
      · simp [hc]
      · simp [hc]

theorem backOffAux_step_noRetry (retryP : JsError → Bool) (sd tm md : Nat)
    (request : Nat → Except JsError String) (attemptNo r : Nat) (e : JsError)
    (herr : request attemptNo = .error e) (hret : retryP e = false) :
    backOffAux retryP sd tm md request attemptNo (r + 1) = ⟨.error e, 1, []⟩ := by
  simp [backOffAux, herr, hret]

theorem backOffAux_step_retry (retryP : JsError → Bool) (sd tm md : Nat)
    (request : Nat → Except JsError String) (attemptNo r : Nat) (e : JsError)
    (herr : request attemptNo = .error e) (hret : retryP e = true) (hr : 0 < r) :
    backOffAux retryP sd tm md request attemptNo (r + 1) =
      ⟨(backOffAux retryP sd tm md request (attemptNo + 1) r).result,
        (backOffAux retryP sd tm md request (attemptNo + 1) r).attempts + 1,
        backOffDelay sd tm md attemptNo ::
          (backOffAux retryP sd tm md request (attemptNo + 1) r).delays⟩ := by
  simp [backOffAux, herr, hret, hr]

/-! ## Path lemmas for `ContentService.generate` -/

theorem generate_hit (env : Nat → String → RemoteOutcome) (now : Nat) (st : Store)
    (topic : String) (type : PromptType) (s : String)
    (h : (CacheService.get TTL_MS now st (ContentService.key topic type)).1 = some s)
    (hs : s ≠ "") :
    ContentService.generate env now st topic type =
      ⟨.ok s, (CacheService.get TTL_MS now st (ContentService.key topic type)).2,
        0, [], []⟩ := by
  simp [ContentService.generate, h, hs]

theorem generate_miss_ok (env : Nat → String → RemoteOutcome) (now : Nat) (st : Store)
    (topic : String) (type : PromptType) (raw : String)
    (hmiss : (CacheService.get TTL_MS now st (ContentService.key topic type)).1 = none ∨
      (CacheService.get TTL_MS now st (ContentService.key topic type)).1 = some "")
    (hok : (runBackOff
        (fun n => attemptCall (env n (ContentService.buildPrompt topic type)))).result =
      .ok raw) :
    ContentService.generate env now st topic type =
      ⟨.ok (sanitize raw type),
        CacheService.set now (CacheService.get TTL_MS now st (ContentService.key topic type)).2
          (ContentService.key topic type) (sanitize raw type),
        (runBackOff
          (fun n => attemptCall (env n (ContentService.buildPrompt topic type)))).attempts,
        (runBackOff
          (fun n => attemptCall (env n (ContentService.buildPrompt topic type)))).delays,
        List.replicate
          (runBackOff
            (fun n => attemptCall (env n (ContentService.buildPrompt topic type)))).attempts
          (ContentService.buildPrompt topic type)⟩ := by
  rcases hmiss with hmiss | hmiss <;> simp [ContentService.generate, hmiss, hok]

theorem generate_miss_err (env : Nat → String → RemoteOutcome) (now : Nat) (st : Store)
    (topic : String) (type : PromptType) (e : JsError)
    (hmiss : (CacheService.get TTL_MS now st (ContentService.key topic type)).1 = none ∨
      (CacheService.get TTL_MS now st (ContentService.key topic type)).1 = some "")
    (herr : (runBackOff
        (fun n => attemptCall (env n (ContentService.buildPrompt topic type)))).result =
      .error e) :
    ContentService.generate env now st topic type =
      ⟨.error (formatError e),
        (CacheService.get TTL_MS now st (ContentService.key topic type)).2,
        (runBackOff
          (fun n => attemptCall (env n (ContentService.buildPrompt topic type)))).attempts,
        (runBackOff
          (fun n => attemptCall (env n (ContentService.buildPrompt topic type)))).delays,
        List.replicate
          (runBackOff
            (fun n => attemptCall (env n (ContentService.buildPrompt topic type)))).attempts
          (ContentService.buildPrompt topic type)⟩ := by
  rcases hmiss with hmiss | hmiss <;> simp [ContentService.generate, hmiss, herr]

/-- The second component returned by `CacheService.get` is the store
unchanged or with the queried key deleted. -/
theorem cacheGet_snd (ttl now : Nat) (st : Store) (key : String) :
    (CacheService.get ttl now st key).2 = st ∨
      (CacheService.get ttl now st key).2 = storeDelete st key := by
  unfold CacheService.get
  cases storeGet st key with
  | none => exact Or.inr rfl
  | some e =>
    by_cases hexp : now - e.timestamp > ttl
    · simp [hexp]
    · simp [hexp]

/-- Any entry present after a `generate` call was already present
unchanged, except possibly a fresh entry at the call's own key written by
a successful fetch. -/
theorem generate_cache_monotone (env : Nat → String → RemoteOutcome) (now : Nat)
    (st : Store) (topic : String) (type : PromptType) (k : String) (e : CacheEntry)
    (h : storeGet (ContentService.generate env now st topic type).cache k = some e) :
    storeGet st k = some e ∨
      (k = ContentService.key topic type ∧
        (ContentService.generate env now st topic type).out = .ok e.content ∧
        e.timestamp = now) := by
  have hsnd := cacheGet_snd TTL_MS now st (ContentService.key topic type)
  have hofsnd :
      ∀ e', storeGet (CacheService.get TTL_MS now st (ContentService.key topic type)).2 k =
        some e' → storeGet st k = some e' := by
    intro e' h'
    rcases hsnd with hsnd | hsnd
    · rwa [hsnd] at h'
    · rw [hsnd] at h'
      exact storeGet_delete_some h'
  by_cases hhit : ∃ s, (CacheService.get TTL_MS now st (ContentService.key topic type)).1 =
      some s ∧ s ≠ ""
  · obtain ⟨s, h1, h2⟩ := hhit
    rw [generate_hit env now st topic type s h1 h2] at h
    exact Or.inl (hofsnd e h)
  · have hmiss : (CacheService.get TTL_MS now st (ContentService.key topic type)).1 = none ∨
        (CacheService.get TTL_MS now st (ContentService.key topic type)).1 = some "" := by
      cases hgot : (CacheService.get TTL_MS now st (ContentService.key topic type)).1 with
      | none => exact Or.inl rfl
      | some s =>
        by_cases hse : s = ""
        · exact Or.inr (by rw [hse])
        · exact absurd ⟨s, hgot, hse⟩ hhit
    cases hres : (runBackOff
        (fun n => attemptCall (env n (ContentService.buildPrompt topic type)))).result with
    | ok raw =>
      rw [generate_miss_ok env now st topic type raw hmiss hres] at h ⊢
      by_cases hk : k = ContentService.key topic type
      · subst hk
        rw [CacheService.set, storeGet_set_self] at h
        refine Or.inr ⟨rfl, ?_, ?_⟩
        · cases h; rfl
        · cases h; rfl
      · rw [CacheService.set, storeGet_set_other hk] at h
        exact Or.inl (hofsnd e h)
    | error e' =>
      rw [generate_miss_err env now st topic type e' hmiss hres] at h
      exact Or.inl (hofsnd e h)

/-- Any error `generate` surfaces is `formatError` of some underlying
failure. -/
theorem generate_out_error_formatted (env : Nat → String → RemoteOutcome) (now : Nat)
    (st : Store) (topic : String) (type : PromptType) (m : String)
    (h : (ContentService.generate env now st topic type).out = .error m) :
    ∃ e : JsError, m = formatError e := by
  by_cases hhit : ∃ s, (CacheService.get TTL_MS now st (ContentService.key topic type)).1 =
      some s ∧ s ≠ ""
  · obtain ⟨s, h1, h2⟩ := hhit
    rw [generate_hit env now st topic type s h1 h2] at h
    simp at h
  · have hmiss : (CacheService.get TTL_MS now st (ContentService.key topic type)).1 = none ∨
        (CacheService.get TTL_MS now st (ContentService.key topic type)).1 = some "" := by
      cases hgot : (CacheService.get TTL_MS now st (ContentService.key topic type)).1 with
      | none => exact Or.inl rfl
      | some s =>
        by_cases hse : s = ""
        · exact Or.inr (by rw [hse])
        · exact absurd ⟨s, hgot, hse⟩ hhit
    cases hres : (runBackOff
        (fun n => attemptCall (env n (ContentService.buildPrompt topic type)))).result with
    | ok raw =>
      rw [generate_miss_ok env now st topic type raw hmiss hres] at h
      simp at h
    | error e =>
      rw [generate_miss_err env now st topic type e hmiss hres] at h
      simp at h
      exact ⟨e, h.symm⟩

/-- `formatError` only ever produces one of the four fixed messages. -/
theorem formatError_mem (e : JsError) :
    formatError e = Errors.invalidKey ∨ formatError e = Errors.rateLimit ∨
      formatError e = Errors.quotaExceeded ∨ formatError e = Errors.generic := by
  unfold formatError
  split_ifs <;> simp

/-! ## Claim theorems -/

/-- C5: every error surfaced by `generate` carries exactly one of the four
fixed user-facing messages, selected first-match-wins in the order:
message contains 'API key' → invalid-key; status 429 → rate-limit; message
contains 'quota' → quota; anything else (including the no-content error) →
generic.  The raw underlying error is never propagated. -/
theorem C5_error_taxonomy :
    (∀ (env : Nat → String → RemoteOutcome) (now : Nat) (st : Store)
        (topic : String) (type : PromptType) (m : String),
        (ContentService.generate env now st topic type).out = .error m →
        m = Errors.invalidKey ∨ m = Errors.rateLimit ∨ m = Errors.quotaExceeded ∨
          m = Errors.generic) ∧
    (∀ e : JsError, jsIncludes e.message "API key" = true →
        formatError e = Errors.invalidKey) ∧
    (∀ e : JsError, jsIncludes e.message "API key" = false → e.status = some 429 →
        formatError e = Errors.rateLimit) ∧
    (∀ e : JsError, jsIncludes e.message "API key" = false → e.status ≠ some 429 →
        jsIncludes e.message "quota" = true → formatError e = Errors.quotaExceeded) ∧
    (∀ e : JsError, jsIncludes e.message "API key" = false → e.status ≠ some 429 →
        jsIncludes e.message "quota" = false → formatError e = Errors.generic) ∧
    formatError noContentError = Errors.generic := by
  refine ⟨?_, ?_, ?_, ?_, ?_, ?_⟩
  · intro env now st topic type m h
    obtain ⟨e, rfl⟩ := generate_out_error_formatted env now st topic type m h
    exact formatError_mem e
  · intro e h
    simp [formatError, h]
  · intro e h1 h2
    simp [formatError, h1, h2]
  · intro e h1 h2 h3
    simp [formatError, h1, h2, h3]
  · intro e h1 h2 h3
    simp [formatError, h1, h2, h3]
  · rfl

/-- Witness for C5 at concrete inputs: a status-400 failure surfaces one of
the four messages, and a quota-mentioning failure is classified as the
quota message. -/
theorem C5_error_taxonomy_witness :
    (Errors.generic = Errors.invalidKey ∨ Errors.generic = Errors.rateLimit ∨
      Errors.generic = Errors.quotaExceeded ∨ Errors.generic = Errors.generic) ∧
    formatError ⟨"You exceeded your current quota", none⟩ = Errors.quotaExceeded := by
  constructor
  · exact C5_error_taxonomy.1 (fun _ _ => .failure ⟨"bad gateway", some 400⟩) 0 []
      "t" .deepDive Errors.generic (by rfl)
  · exact C5_error_taxonomy.2.2.2.1 ⟨"You exceeded your current quota", none⟩
      (by decide) (by decide) (by decide)

/-- C7: `get` returns the stored value exactly when an entry exists whose
age is at most the 24-hour TTL (in which case the store is untouched); an
entry older than the TTL makes `get` return `none` and delete the entry;
and a `generate` call that finds only an expired entry performs at least
one fresh remote call. -/
theorem C7_cache_get_ttl :
    (∀ (st : Store) (now : Nat) (key v : String),
        (CacheService.get TTL_MS now st key).1 = some v ↔
          ∃ e : CacheEntry, storeGet st key = some e ∧ now - e.timestamp ≤ TTL_MS ∧
            v = e.content) ∧
    (∀ (st : Store) (now : Nat) (key : String) (e : CacheEntry),
        storeGet st key = some e → now - e.timestamp ≤ TTL_MS →
        (CacheService.get TTL_MS now st key).2 = st) ∧
    (∀ (st : Store) (now : Nat) (key : String) (e : CacheEntry),
        storeGet st key = some e → now - e.timestamp > TTL_MS →
        CacheService.get TTL_MS now st key = (none, storeDelete st key)) ∧
    (∀ (env : Nat → String → RemoteOutcome) (now : Nat) (st : Store)
        (topic : String) (type : PromptType) (e : CacheEntry),
        storeGet st (ContentService.key topic type) = some e →
        now - e.timestamp > TTL_MS →
        0 < (ContentService.generate env now st topic type).remoteCalls) := by
  refine ⟨?_, ?_, ?_, ?_⟩
  · intro st now key v
    unfold CacheService.get
    cases hget : storeGet st key with
    | none => simp
    | some e0 =>
      by_cases hexp : now - e0.timestamp > TTL_MS
      · simp only [hexp, if_pos]
        constructor
        · intro hcontra
          simp at hcontra
        · rintro ⟨e, he, hle, _⟩
          injection he with he
          subst he
          omega
      · simp only [hexp, if_neg, not_false_iff]
        constructor
        · intro hv
          injection hv with hv
          exact ⟨e0, rfl, by omega, hv.symm⟩
        · rintro ⟨e, he, hle, hv⟩
          injection he with he
          subst he
          simp [hv]
  · intro st now key e hget hle
    unfold CacheService.get
    rw [hget]
    simp only [if_neg (by omega : ¬ now - e.timestamp > TTL_MS)]
  · intro st now key e hget hexp
    unfold CacheService.get
    rw [hget]
    simp [hexp]
  · intro env now st topic type e hget hexp
    have hmiss : (CacheService.get TTL_MS now st (ContentService.key topic type)).1 = none ∨
        (CacheService.get TTL_MS now st (ContentService.key topic type)).1 = some "" := by
      left
      unfold CacheService.get
      rw [hget]
      simp [hexp]
    have hpos : 0 < (runBackOff
        (fun n => attemptCall (env n (ContentService.buildPrompt topic type)))).attempts :=
      backOffAux_attempts_pos isRetryable 2000 2 20000 _ 1 5 (by omega)
    cases hres : (runBackOff
        (fun n => attemptCall (env n (ContentService.buildPrompt topic type)))).result with
    | ok raw =>
      rw [generate_miss_ok env now st topic type raw hmiss hres]
      exact hpos
    | error e' =>
      rw [generate_miss_err env now st topic type e' hmiss hres]
      exact hpos

/-- Witness for C7 at concrete inputs: a fresh entry is returned, an
expired entry is evicted, and an expired entry triggers a remote call. -/
theorem C7_cache_get_ttl_witness :
    (CacheService.get TTL_MS 5 [("k", ⟨"v", 0⟩)] "k").1 = some "v" ∧
    CacheService.get TTL_MS (TTL_MS + 1) [("k", ⟨"v", 0⟩)] "k" =
      (none, storeDelete [("k", ⟨"v", 0⟩)] "k") ∧
    0 < (ContentService.generate (fun _ _ => .success [some "fresh"]) (TTL_MS + 1)
      [("t::deep-dive", ⟨"v", 0⟩)] "t" .deepDive).remoteCalls := by
  refine ⟨?_, ?_, ?_⟩
  · exact (C7_cache_get_ttl.1 [("k", ⟨"v", 0⟩)] 5 "k" "v").mpr
      ⟨⟨"v", 0⟩, rfl, by decide, rfl⟩
  · exact C7_cache_get_ttl.2.2.1 [("k", ⟨"v", 0⟩)] (TTL_MS + 1) "k" ⟨"v", 0⟩ rfl
      (by decide)
  · exact C7_cache_get_ttl.2.2.2 (fun _ _ => .success [some "fresh"]) (TTL_MS + 1)
      [("t::deep-dive", ⟨"v", 0⟩)] "t" .deepDive ⟨"v", 0⟩ (by decide) (by decide)

/-- C9: when `generate` fails, no cache entry is created or overwritten —
every entry present afterwards (at the call's key or any other) was
already present unchanged; and in general an entry is never mutated: it
can only be replaced wholesale by a successful fetch's `set` at the call's
own key (stamped with the call's time), the hit path and the failure path
leaving all entries as they were (modulo lazy eviction of expired
entries, which only removes). -/
theorem C9_failure_leaves_cache (env : Nat → String → RemoteOutcome) (now : Nat)
    (st : Store) (topic : String) (type : PromptType) :
    (∀ m, (ContentService.generate env now st topic type).out = .error m →
      ∀ (k : String) (e : CacheEntry),
        storeGet (ContentService.generate env now st topic type).cache k = some e →
        storeGet st k = some e) ∧
    (∀ (k : String) (e : CacheEntry),
      storeGet (ContentService.generate env now st topic type).cache k = some e →
      storeGet st k = some e ∨
        (k = ContentService.key topic type ∧
          (ContentService.generate env now st topic type).out = .ok e.content ∧
          e.timestamp = now)) := by
  constructor
  · intro m hm k e h
    rcases generate_cache_monotone env now st topic type k e h with hold | ⟨_, hok, _⟩
    · exact hold
    · rw [hm] at hok
      simp at hok
  · intro k e h
    exact generate_cache_monotone env now st topic type k e h

/-- Witness for C9 at concrete inputs: after a failing call, a pre-existing
entry under another key is still present unchanged. -/
theorem C9_failure_leaves_cache_witness :
    storeGet [("keep::x", ⟨"v", 0⟩)] "keep::x" = some ⟨"v", 0⟩ :=
  (C9_failure_leaves_cache (fun _ _ => .failure ⟨"boom", some 400⟩) 7
      [("keep::x", ⟨"v", 0⟩)] "a" .deepDive).1
    "Failed to generate content. Please retry later." (by rfl) "keep::x" ⟨"v", 0⟩
    (by rfl)

/-- A transport success without usable text raises the no-content error. -/
theorem attemptCall_noContent (choices : List (Option String))
    (h : firstContent choices = none ∨ firstContent choices = some "") :
    attemptCall (.success choices) = .error noContentError := by
  rcases h with h | h <;> simp [attemptCall, h]

/-- A full exhaustion run: when the first four attempts fail retryably and
the fifth fails too, `runBackOff` makes exactly 5 attempts, surfaces the
fifth error, and awaits the doubling delays. -/
theorem runBackOff_exhaust (request : Nat → Except JsError String) (es : Nat → JsError)
    (herr : ∀ n, 1 ≤ n → n ≤ 5 → request n = .error (es n))
    (hret : ∀ n, 1 ≤ n → n ≤ 4 → isRetryable (es n) = true) :
    runBackOff request = ⟨.error (es 5), 5, [2000, 4000, 8000, 16000]⟩ := by
  have e1 := herr 1 (by omega) (by omega)
  have e2 := herr 2 (by omega) (by omega)
  have e3 := herr 3 (by omega) (by omega)
  have e4 := herr 4 (by omega) (by omega)
  have e5 := herr 5 (by omega) (by omega)
  have r1 := hret 1 (by omega) (by omega)
  have r2 := hret 2 (by omega) (by omega)
  have r3 := hret 3 (by omega) (by omega)
  have r4 := hret 4 (by omega) (by omega)
  simp [runBackOff, backOffAux, e1, e2, e3, e4, e5, r1, r2, r3, r4, backOffDelay]

/-- C2: a failure is classified retryable exactly when its numeric status
is one of 408, 429, 500, 502, 503, 504; a transport success with no
usable `choices[0].message.content` raises the status-less error
'No content returned', which is not retryable, so it aborts the attempt
sequence immediately with no further attempts and no delay. -/
theorem C2_retry_classification :
    (∀ e : JsError, isRetryable e = true ↔
      ∃ s, e.status = some s ∧
        (s = 408 ∨ s = 429 ∨ s = 500 ∨ s = 502 ∨ s = 503 ∨ s = 504)) ∧
    (∀ choices : List (Option String),
      firstContent choices = none ∨ firstContent choices = some "" →
      attemptCall (.success choices) = .error noContentError) ∧
    noContentError.message = "No content returned" ∧
    noContentError.status = none ∧
    isRetryable noContentError = false ∧
    (∀ (request : Nat → Except JsError String) (attemptNo r : Nat) (e : JsError),
      request attemptNo = .error e → isRetryable e = false →
      backOffAux isRetryable 2000 2 20000 request attemptNo (r + 1) =
        ⟨.error e, 1, []⟩) ∧
    (∀ (env : Nat → String → RemoteOutcome) (prompt : String)
        (choices : List (Option String)),
      env 1 prompt = .success choices →
      (firstContent choices = none ∨ firstContent choices = some "") →
      runBackOff (fun n => attemptCall (env n prompt)) =
        ⟨.error noContentError, 1, []⟩) := by
  refine ⟨?_, attemptCall_noContent, rfl, rfl, rfl, ?_, ?_⟩
  · intro e
    cases hs : e.status with
    | none => simp [isRetryable, hs]
    | some s =>
      simp only [isRetryable, hs, RETRYABLE]
      constructor
      · intro h
        refine ⟨s, rfl, ?_⟩
        have : s ∈ [408, 429, 500, 502, 503, 504] := by
          simpa using h
        simpa using this
      · rintro ⟨s', hs', hmem⟩
        injection hs' with hs'
        subst hs'
        simp [List.contains]
        rcases hmem with h | h | h | h | h | h <;> simp [h]
  · intro request attemptNo r e herr hret
    exact backOffAux_step_noRetry isRetryable 2000 2 20000 request attemptNo r e herr hret
  · intro env prompt choices henv hnone
    have hreq : (fun n => attemptCall (env n prompt)) 1 = .error noContentError := by
      simp only [henv]
      exact attemptCall_noContent choices hnone
    exact backOffAux_step_noRetry isRetryable 2000 2 20000 _ 1 4 noContentError hreq rfl

/-- Witness for C2 at concrete inputs: 503 is retryable, and an empty
`choices` response aborts after exactly one attempt with no delay. -/
theorem C2_retry_classification_witness :
    isRetryable ⟨"server exploded", some 503⟩ = true ∧
    runBackOff (fun n => attemptCall ((fun _ _ => RemoteOutcome.success []) n "p")) =
      ⟨.error noContentError, 1, []⟩ := by
  constructor
  · exact (C2_retry_classification.1 ⟨"server exploded", some 503⟩).mpr
      ⟨503, rfl, by omega⟩
  · exact C2_retry_classification.2.2.2.2.2.2 (fun _ _ => .success []) "p" []
      rfl (Or.inl rfl)

/-- C3 counterexample: with every attempt failing at status 429 but a
message that mentions 'API key', `generate` does make exactly 5 attempts,
yet surfaces the invalid-key message instead of the rate-limit one,
because the message check precedes the status check in `formatError`. -/
theorem C3_counterexample :
    (ContentService.generate
        (fun _ _ => .failure ⟨"Incorrect API key provided", some 429⟩)
        0 [] "t" .deepDive).remoteCalls = 5 ∧
    (ContentService.generate
        (fun _ _ => .failure ⟨"Incorrect API key provided", some 429⟩)
        0 [] "t" .deepDive).out = .error Errors.invalidKey ∧
    Errors.invalidKey ≠ Errors.rateLimit := by
  refine ⟨by decide, by rfl, by decide⟩

/-- C3 (amended): if the cache has no entry for the key and every remote
attempt fails with a status-429 error whose final message does not mention
'API key', then `generate` performs exactly 5 remote attempts and then
fails with the rate-limit message — it neither succeeds nor makes a sixth
attempt. -/
theorem C3_amended_rate_limited_after_5 (env : Nat → String → RemoteOutcome)
    (now : Nat) (st : Store) (topic : String) (type : PromptType)
    (msgs : Nat → String)
    (hnone : storeGet st (ContentService.key topic type) = none)
    (henv : ∀ n prompt, env n prompt = .failure ⟨msgs n, some 429⟩)
    (hmsg : jsIncludes (msgs 5) "API key" = false) :
    (ContentService.generate env now st topic type).remoteCalls = 5 ∧
    (ContentService.generate env now st topic type).out =
      .error Errors.rateLimit := by
  have hmiss : (CacheService.get TTL_MS now st (ContentService.key topic type)).1 = none ∨
      (CacheService.get TTL_MS now st (ContentService.key topic type)).1 = some "" := by
    left
    unfold CacheService.get
    rw [hnone]
  have hrun := runBackOff_exhaust
      (fun n => attemptCall (env n (ContentService.buildPrompt topic type)))
      (fun n => ⟨msgs n, some 429⟩)
      (fun n _ _ => by simp [henv, attemptCall])
      (fun n _ _ => rfl)
  have hres : (runBackOff
      (fun n => attemptCall (env n (ContentService.buildPrompt topic type)))).result =
      .error ⟨msgs 5, some 429⟩ := by rw [hrun]
  rw [generate_miss_err env now st topic type ⟨msgs 5, some 429⟩ hmiss hres]
  constructor
  · rw [hrun]
  · simp [formatError, hmsg]

/-- Witness for C3 (amended) at concrete inputs. -/
theorem C3_amended_rate_limited_after_5_witness :
    (ContentService.generate (fun _ _ => .failure ⟨"Too many requests", some 429⟩)
        0 [] "t" .deepDive).remoteCalls = 5 ∧
    (ContentService.generate (fun _ _ => .failure ⟨"Too many requests", some 429⟩)
        0 [] "t" .deepDive).out = .error Errors.rateLimit :=
  C3_amended_rate_limited_after_5 (fun _ _ => .failure ⟨"Too many requests", some 429⟩)
    0 [] "t" .deepDive (fun _ => "Too many requests") rfl (fun _ _ => rfl) (by decide)

/-- C6: for an exhausted 5-attempt retry sequence the awaited delays are
exactly `min(20000, 2000·2^(N−2))` before attempt `N`, i.e.
`[2000, 4000, 8000, 16000]`; the sequence is non-decreasing and every
delay is at most the 20000 cap. -/
theorem C6_backoff_growth (request : Nat → Except JsError String) (es : Nat → JsError)
    (herr : ∀ n, 1 ≤ n → n ≤ 5 → request n = .error (es n))
    (hret : ∀ n, 1 ≤ n → n ≤ 4 → isRetryable (es n) = true) :
    (runBackOff request).attempts = 5 ∧
    (runBackOff request).delays =
      [backOffDelay 2000 2 20000 1, backOffDelay 2000 2 20000 2,
        backOffDelay 2000 2 20000 3, backOffDelay 2000 2 20000 4] ∧
    (runBackOff request).delays = [2000, 4000, 8000, 16000] ∧
    List.Chain' (· ≤ ·) (runBackOff request).delays ∧
    (∀ d ∈ (runBackOff request).delays, d ≤ 20000) := by
  have hrun := runBackOff_exhaust request es herr hret
  rw [hrun]
  refine ⟨rfl, ?_, rfl, ?_, ?_⟩
  · show [2000, 4000, 8000, 16000] =
      [backOffDelay 2000 2 20000 1, backOffDelay 2000 2 20000 2,
        backOffDelay 2000 2 20000 3, backOffDelay 2000 2 20000 4]
    decide
  · show List.Chain' (· ≤ ·) [2000, 4000, 8000, 16000]
    norm_num
  · show ∀ d ∈ [2000, 4000, 8000, 16000], d ≤ 20000
    decide

/-- Witness for C6 at a concrete always-503 endpoint. -/
theorem C6_backoff_growth_witness :
    (runBackOff (fun _ => .error ⟨"service unavailable", some 503⟩)).attempts = 5 ∧
    (runBackOff (fun _ => .error ⟨"service unavailable", some 503⟩)).delays =
      [backOffDelay 2000 2 20000 1, backOffDelay 2000 2 20000 2,
        backOffDelay 2000 2 20000 3, backOffDelay 2000 2 20000 4] ∧
    (runBackOff (fun _ => .error ⟨"service unavailable", some 503⟩)).delays =
      [2000, 4000, 8000, 16000] ∧
    List.Chain' (· ≤ ·) (runBackOff (fun _ => .error ⟨"service unavailable", some 503⟩)).delays ∧
    (∀ d ∈ (runBackOff (fun _ => .error ⟨"service unavailable", some 503⟩)).delays,
      d ≤ 20000) :=
  C6_backoff_growth (fun _ => .error ⟨"service unavailable", some 503⟩)
    (fun _ => ⟨"service unavailable", some 503⟩) (fun _ _ _ => rfl) (fun _ _ _ => rfl)

/-- A fresh entry makes `get` a hit that leaves the store untouched. -/
theorem cacheGet_fresh {ttl now : Nat} {st : Store} {key : String} {e : CacheEntry}
    (hget : storeGet st key = some e) (hle : now - e.timestamp ≤ ttl) :
    CacheService.get ttl now st key = (some e.content, st) := by
  unfold CacheService.get
  rw [hget]
  simp [show ¬now - e.timestamp > ttl by omega]

/-- After a successful `generate` with non-empty result `r`, the cache
holds an entry with content `r` under the call's key. -/
theorem generate_ok_entry (env : Nat → String → RemoteOutcome) (now : Nat) (st : Store)
    (topic : String) (type : PromptType) (r : String)
    (h : (ContentService.generate env now st topic type).out = .ok r) :
    ∃ e : CacheEntry,
      storeGet (ContentService.generate env now st topic type).cache
        (ContentService.key topic type) = some e ∧ e.content = r := by
  by_cases hhit : ∃ s, (CacheService.get TTL_MS now st (ContentService.key topic type)).1 =
      some s ∧ s ≠ ""
  · obtain ⟨s, h1, h2⟩ := hhit
    rw [generate_hit env now st topic type s h1 h2] at h ⊢
    simp only [Except.ok.injEq] at h
    subst h
    obtain ⟨e0, hg0, _, hv0, hsnd0⟩ :
        ∃ e0 : CacheEntry, storeGet st (ContentService.key topic type) = some e0 ∧
          now - e0.timestamp ≤ TTL_MS ∧ s = e0.content ∧
          (CacheService.get TTL_MS now st (ContentService.key topic type)).2 = st := by
      unfold CacheService.get at h1 ⊢
      cases hget : storeGet st (ContentService.key topic type) with
      | none => rw [hget] at h1; simp at h1
      | some e0 =>
        rw [hget] at h1
        by_cases hexp : now - e0.timestamp > TTL_MS
        · simp [hexp] at h1
        · simp only [hexp, if_neg, not_false_iff] at h1
          injection h1 with h1
          exact ⟨e0, rfl, by omega, h1.symm, by simp [hexp]⟩
    exact ⟨e0, by rw [hsnd0, hg0], hv0.symm⟩
  · have hmiss : (CacheService.get TTL_MS now st (ContentService.key topic type)).1 = none ∨
        (CacheService.get TTL_MS now st (ContentService.key topic type)).1 = some "" := by
      cases hgot : (CacheService.get TTL_MS now st (ContentService.key topic type)).1 with
      | none => exact Or.inl rfl
      | some s =>
        by_cases hse : s = ""
        · exact Or.inr (by rw [hse])
        · exact absurd ⟨s, hgot, hse⟩ hhit
    cases hres : (runBackOff
        (fun n => attemptCall (env n (ContentService.buildPrompt topic type)))).result with
    | ok raw =>
      rw [generate_miss_ok env now st topic type raw hmiss hres] at h ⊢
      simp only [Except.ok.injEq] at h
      exact ⟨⟨sanitize raw type, now⟩, storeGet_set_self _ _ _, h⟩
    | error e =>
      rw [generate_miss_err env now st topic type e hmiss hres] at h
      simp at h

/-- C1 counterexample: the first call succeeds but its sanitized result is
the empty string (the raw text is one fenced code block); the empty string
is cached, yet the second call within the TTL treats the falsy cached
value as a miss, performs a fresh remote call and returns that fresh
(different) answer. -/
theorem C1_counterexample :
    (ContentService.generate (fun _ _ => .success [some "\x60\x60\x60x\x60\x60\x60"])
        0 [] "t" .deepDive).out = .ok "" ∧
    (1000 : Nat) - 0 ≤ TTL_MS ∧
    (ContentService.generate (fun _ _ => .success [some "fresh"]) 1000
        (ContentService.generate (fun _ _ => .success [some "\x60\x60\x60x\x60\x60\x60"])
          0 [] "t" .deepDive).cache
        "t" .deepDive).remoteCalls = 1 ∧
    (ContentService.generate (fun _ _ => .success [some "fresh"]) 1000
        (ContentService.generate (fun _ _ => .success [some "\x60\x60\x60x\x60\x60\x60"])
          0 [] "t" .deepDive).cache
        "t" .deepDive).out = .ok "fresh" ∧
    ("fresh" : String) ≠ "" := by
  refine ⟨by rfl, by decide, by decide, by rfl, by decide⟩

/-- C1 (amended): if a `generate` call completes successfully with a
NON-EMPTY result `r`, then the cache holds `r` under the call's key, and
any second call for the same topic and kind made while that entry is
within the 24-hour TTL performs zero remote calls, awaits no delays,
sends no prompt, re-runs nothing, and returns exactly `r`, leaving the
cache unchanged.  (For an empty result the truthy hit-check treats the
cached value as a miss — see the counterexample.) -/
theorem C1_amended_cached_reuse (env1 env2 : Nat → String → RemoteOutcome)
    (now1 now2 : Nat) (st : Store) (topic : String) (type : PromptType) (r : String)
    (h1 : (ContentService.generate env1 now1 st topic type).out = .ok r)
    (hr : r ≠ "") :
    (∃ e : CacheEntry,
      storeGet (ContentService.generate env1 now1 st topic type).cache
        (ContentService.key topic type) = some e ∧ e.content = r) ∧
    (∀ e : CacheEntry,
      storeGet (ContentService.generate env1 now1 st topic type).cache
        (ContentService.key topic type) = some e →
      now2 - e.timestamp ≤ TTL_MS →
      ContentService.generate env2 now2
          (ContentService.generate env1 now1 st topic type).cache topic type =
        ⟨.ok r, (ContentService.generate env1 now1 st topic type).cache, 0, [], []⟩) := by
  obtain ⟨e', he', hc'⟩ := generate_ok_entry env1 now1 st topic type r h1
  refine ⟨⟨e', he', hc'⟩, ?_⟩
  intro e he hfresh
  have hee : e' = e := by
    rw [he'] at he
    injection he
  subst hee
  have hget2 := cacheGet_fresh he' hfresh
  have hhit := generate_hit env2 now2
    (ContentService.generate env1 now1 st topic type).cache topic type e'.content
    (by rw [hget2]) (by rw [hc']; exact hr)
  rw [hhit, hget2, hc']

/-- Witness for C1 (amended) at concrete inputs: a successful first call
caches "hello"; a second call 1000 ms later returns it with zero remote
calls. -/
theorem C1_amended_cached_reuse_witness :
    ContentService.generate (fun _ _ => .failure ⟨"down", some 500⟩) 1000
        (ContentService.generate (fun _ _ => .success [some "hello"]) 0 []
          "t" .deepDive).cache "t" .deepDive =
      ⟨.ok "hello",
        (ContentService.generate (fun _ _ => .success [some "hello"]) 0 []
          "t" .deepDive).cache, 0, [], []⟩ :=
  (C1_amended_cached_reuse (fun _ _ => .success [some "hello"])
      (fun _ _ => .failure ⟨"down", some 500⟩) 0 1000 [] "t" .deepDive "hello"
      (by rfl) (by decide)).2 ⟨"hello", 0⟩ (by rfl) (by decide)

/-- C8 (code evaluated at the failing input): the source renders the
prompt with `template.replace(/%TOPIC%/g, topic)`, whose replacement
string undergoes ECMAScript `$`-substitution. For the topic `$&` the
prompt therefore contains the matched text `%TOPIC%` and NOT the literal
topic, contradicting the claim's literal-substitution guarantee; for
`$`-free topics such as "Ohm's Law" the substitution is literal and the
cache key is the topic, `::`, and the kind. -/
theorem C8_topic_substitution_bug :
    jsIncludes (ContentService.buildPrompt "$&" .followUp) "%TOPIC%" = true ∧
    jsIncludes (ContentService.buildPrompt "$&" .followUp) "$&" = false ∧
    jsIncludes (ContentService.buildPrompt "Ohm's Law" .explainSimply) "Ohm's Law" = true ∧
    jsIncludes (ContentService.buildPrompt "Ohm's Law" .explainSimply) "%TOPIC%" = false ∧
    ContentService.key "Ohm's Law" .explainSimply = "Ohm's Law::explain-simply" := by
  refine ⟨by decide, by decide, by decide, by decide, by decide⟩

/-- A successful retry-loop result comes from some successful request. -/
theorem backOffAux_ok_from_request (retryP : JsError → Bool) (sd tm md : Nat)
    (request : Nat → Except JsError String) (attemptNo remaining : Nat) (s : String)
    (h : (backOffAux retryP sd tm md request attemptNo remaining).result = .ok s) :
    ∃ n, request n = .ok s := by
  induction remaining generalizing attemptNo with
  | zero => simp [backOffAux] at h
  | succ r ih =>
    simp only [backOffAux] at h
    cases hreq : request attemptNo with
    | ok s' =>
      rw [hreq] at h
      simp at h
      exact ⟨attemptNo, by rw [hreq, h]⟩
    | error e =>
      rw [hreq] at h
      by_cases hc : (0 < r && retryP e) = true
      · simp only [hc, if_pos] at h
        exact ih (attemptNo + 1) h
      · simp [hc] at h

/-- `generateCompletion` never succeeds with an empty payload. -/
theorem generateCompletion_ok_ne_empty (o : RemoteOutcome) (s : String)
    (h : generateCompletion o = .ok s) : s ≠ "" := by
  cases o with
  | failure e => simp [generateCompletion] at h
  | success choices =>
    cases hc : firstContent choices with
    | none => simp [generateCompletion, hc] at h
    | some s' =>
      by_cases hse : s' = ""
      · simp [generateCompletion, hc, hse] at h
      · simp [generateCompletion, hc, hse] at h
        exact h ▸ hse

/-- The `||`-fallback of `generatePrompt`: a prompt type that is neither a
defined kind nor an `Object.prototype` property name renders the
`explain-simply` template. -/
theorem generatePrompt_unknown (topic pt : String) (h : pt ∉ definedPromptTypes)
    (hp : pt ∉ objectPrototypeMembers) :
    generatePrompt topic pt = generatePrompt topic "explain-simply" := by
  simp only [definedPromptTypes, List.mem_cons, List.not_mem_nil, or_false, not_or] at h
  obtain ⟨h1, h2, h3, h4, h5, h6, h7, h8, h9, h10⟩ := h
  simp [generatePrompt, ownTemplate, h1, h2, h3, h4, h5, h6, h7, h8, h9, h10, hp]

/-- `generateContent` on an empty cache, successful-fetch path. -/
theorem generateContent_nil_ok (env : Nat → PromptValue → RemoteOutcome) (now : Nat)
    (topic pt result : String)
    (hres : (runBackOffContent
        (fun n => generateCompletion (env n (generatePrompt topic pt)))).result =
      .ok result) :
    generateContent env now [] topic pt =
      ⟨.ok (if pt = "follow-up" then (if result = "" then "[]" else result) else result),
        if result = "" then [] else saveToCache [] now topic pt result,
        (runBackOffContent
          (fun n => generateCompletion (env n (generatePrompt topic pt)))).attempts,
        (runBackOffContent
          (fun n => generateCompletion (env n (generatePrompt topic pt)))).delays⟩ := by
  simp [generateContent, getFromCache, storeGet, hres]

/-- `generateContent` on an empty cache, exhausted/aborted-fetch path. -/
theorem generateContent_nil_err (env : Nat → PromptValue → RemoteOutcome) (now : Nat)
    (topic pt : String) (e : JsError)
    (hres : (runBackOffContent
        (fun n => generateCompletion (env n (generatePrompt topic pt)))).result =
      .error e) :
    generateContent env now [] topic pt =
      ⟨.error (getErrorMessage e), [],
        (runBackOffContent
          (fun n => generateCompletion (env n (generatePrompt topic pt)))).attempts,
        (runBackOffContent
          (fun n => generateCompletion (env n (generatePrompt topic pt)))).delays⟩ := by
  simp [generateContent, getFromCache, storeGet, hres]

/-- C10 counterexample: for the prompt type `'toString'` (likewise
`'valueOf'`, `'constructor'`, `'__proto__'`, ...) the object lookup finds
the truthy member inherited from `Object.prototype`, so the `||` fallback
to `'explain-simply'` does NOT fire: `generatePrompt` yields the inherited
function, not the `explain-simply` template, and `generateContent` with a
remote endpoint that rejects the malformed content behaves differently
from the `explain-simply` run. -/
theorem C10_counterexample :
    generatePrompt "X" "toString" = .inherited "toString" ∧
    generatePrompt "X" "toString" ≠ generatePrompt "X" "explain-simply" ∧
    ("toString" : String) ∉ definedPromptTypes ∧
    (generateContent
        (fun _ p => match p with
          | .inherited _ => .failure ⟨"request failed", some 400⟩
          | .tmpl _ => .success [some "ok"])
        0 [] "X" "toString").out =
      .error "Failed to generate content. Please try again later." ∧
    (generateContent
        (fun _ p => match p with
          | .inherited _ => .failure ⟨"request failed", some 400⟩
          | .tmpl _ => .success [some "ok"])
        0 [] "X" "explain-simply").out = .ok "ok" := by
  refine ⟨by rfl, by decide, by decide, by rfl, by rfl⟩

/-- C10 (amended): for every prompt type that is neither one of the ten
defined kinds nor a property name inherited from `Object.prototype`,
`generatePrompt` does not fail but falls back to the `explain-simply`
template, so `generateContent` behaves exactly as for `explain-simply`
(same output, same number of remote calls, same delays) except that a
successful result is cached under the unknown kind's own key.  (For
`Object.prototype` names the lookup returns the truthy inherited member
and no fallback happens — see the counterexample.) -/
theorem C10_unknown_kind_fallback :
    (∀ topic pt : String, pt ∉ definedPromptTypes → pt ∉ objectPrototypeMembers →
      generatePrompt topic pt = generatePrompt topic "explain-simply") ∧
    (∀ (env : Nat → PromptValue → RemoteOutcome) (now : Nat) (topic pt : String),
      pt ∉ definedPromptTypes → pt ∉ objectPrototypeMembers →
      (generateContent env now [] topic pt).out =
          (generateContent env now [] topic "explain-simply").out ∧
        (generateContent env now [] topic pt).remoteCalls =
          (generateContent env now [] topic "explain-simply").remoteCalls ∧
        (generateContent env now [] topic pt).delays =
          (generateContent env now [] topic "explain-simply").delays ∧
        (∀ r, (generateContent env now [] topic pt).out = .ok r →
          storeGet (generateContent env now [] topic pt).cache (getCacheKey topic pt) =
            some ⟨r, now⟩)) := by
  refine ⟨generatePrompt_unknown, ?_⟩
  intro env now topic pt h hproto
  have hfu : pt ≠ "follow-up" := by
    intro hcontra
    subst hcontra
    simp [definedPromptTypes] at h
  have hp := generatePrompt_unknown topic pt h hproto
  have htr : (fun n => generateCompletion (env n (generatePrompt topic pt))) =
      (fun n => generateCompletion (env n (generatePrompt topic "explain-simply"))) := by
    rw [hp]
  cases hres : (runBackOffContent
      (fun n => generateCompletion (env n (generatePrompt topic "explain-simply")))).result with
  | ok result =>
    have hresp : (runBackOffContent
        (fun n => generateCompletion (env n (generatePrompt topic pt)))).result =
        .ok result := by rw [htr, hres]
    have hrne : result ≠ "" := by
      obtain ⟨n, hn⟩ := backOffAux_ok_from_request isRetryableError 2000 2 20000 _ 1 5
        result hresp
      exact generateCompletion_ok_ne_empty _ result hn
    rw [generateContent_nil_ok env now topic pt result hresp,
      generateContent_nil_ok env now topic "explain-simply" result hres]
    refine ⟨?_, ?_, ?_, ?_⟩
    · simp [hfu, hrne, show ("explain-simply" : String) ≠ "follow-up" by decide]
    · rw [htr]
    · rw [htr]
    · intro r hr
      simp only [hfu, if_neg, not_false_iff, hrne] at hr
      simp only [Except.ok.injEq] at hr
      subst hr
      simp only [hrne, if_neg, not_false_iff]
      exact storeGet_set_self [] (getCacheKey topic pt) ⟨result, now⟩
  | error e =>
    have hresp : (runBackOffContent
        (fun n => generateCompletion (env n (generatePrompt topic pt)))).result =
        .error e := by rw [htr, hres]
    rw [generateContent_nil_err env now topic pt e hresp,
      generateContent_nil_err env now topic "explain-simply" e hres]
    refine ⟨rfl, by rw [htr], by rw [htr], ?_⟩
    intro r hr
    simp at hr

/-- Witness for C10 (amended) at concrete inputs with the unknown kind
"mystery" (neither a defined kind nor an `Object.prototype` name). -/
theorem C10_unknown_kind_fallback_witness :
    generatePrompt "Ohm's Law" "mystery" = generatePrompt "Ohm's Law" "explain-simply" ∧
    (generateContent (fun _ _ => .success [some "hi"]) 7 [] "X" "mystery").out =
      (generateContent (fun _ _ => .success [some "hi"]) 7 [] "X" "explain-simply").out ∧
    storeGet (generateContent (fun _ _ => .success [some "hi"]) 7 [] "X" "mystery").cache
      (getCacheKey "X" "mystery") = some ⟨"hi", 7⟩ := by
  have h : ("mystery" : String) ∉ definedPromptTypes := by decide
  have hproto : ("mystery" : String) ∉ objectPrototypeMembers := by decide
  refine ⟨C10_unknown_kind_fallback.1 "Ohm's Law" "mystery" h hproto, ?_, ?_⟩
  · exact (C10_unknown_kind_fallback.2 (fun _ _ => .success [some "hi"]) 7 "X" "mystery"
      h hproto).1
  · exact (C10_unknown_kind_fallback.2 (fun _ _ => .success [some "hi"]) 7 "X" "mystery"
      h hproto).2.2.2 "hi" (by rfl)

/-! ## Lemmas about `indexOf`, `lastIndexOf` and `slice`, toward C4 -/

theorem indexOfChar_cases (cs : List Char) (c : Char) :
    indexOfChar cs c = -1 ∨ 0 ≤ indexOfChar cs c := by
  induction cs with
  | nil => exact Or.inl rfl
  | cons a rest ih =>
    by_cases hac : a = c
    · right
      simp [indexOfChar, hac]
    · rcases ih with ih | ih
      · left
        simp [indexOfChar, hac, ih]
      · right
        simp only [indexOfChar, hac, if_neg, not_false_iff]
        rw [if_neg (by omega)]
        omega

theorem lastIndexOfChar_cases (cs : List Char) (c : Char) :
    lastIndexOfChar cs c = -1 ∨ 0 ≤ lastIndexOfChar cs c := by
  induction cs with
  | nil => exact Or.inl rfl
  | cons a rest ih =>
    rcases ih with ih | ih
    · by_cases hac : a = c
      · right
        simp [lastIndexOfChar, ih, hac]
      · left
        simp [lastIndexOfChar, ih, hac]
    · right
      simp only [lastIndexOfChar]
      rw [if_pos ih]
      omega

theorem indexOfChar_found (cs : List Char) (c : Char) (h : 0 ≤ indexOfChar cs c) :
    ∃ tl, cs.drop (indexOfChar cs c).toNat = c :: tl := by
  induction cs with
  | nil => simp [indexOfChar] at h
  | cons a rest ih =>
    by_cases hac : a = c
    · subst hac
      exact ⟨rest, by simp [indexOfChar]⟩
    · by_cases hneg : indexOfChar rest c < 0
      · simp [indexOfChar, hac, hneg] at h
      · push_neg at hneg
        obtain ⟨tl, htl⟩ := ih hneg
        refine ⟨tl, ?_⟩
        simp only [indexOfChar, hac, if_neg, not_false_iff]
        rw [if_neg (by omega)]
        have hn : (indexOfChar rest c + 1).toNat = (indexOfChar rest c).toNat + 1 := by
          omega
        rw [hn, List.drop_succ_cons]
        exact htl

theorem lastIndexOfChar_found (cs : List Char) (c : Char)
    (h : 0 ≤ lastIndexOfChar cs c) :
    ∃ tl, cs.drop (lastIndexOfChar cs c).toNat = c :: tl := by
  induction cs with
  | nil => simp [lastIndexOfChar] at h
  | cons a rest ih =>
    by_cases hr : 0 ≤ lastIndexOfChar rest c
    · obtain ⟨tl, htl⟩ := ih hr
      refine ⟨tl, ?_⟩
      simp only [lastIndexOfChar]
      rw [if_pos hr]
      have hn : (lastIndexOfChar rest c + 1).toNat = (lastIndexOfChar rest c).toNat + 1 := by
        omega
      rw [hn, List.drop_succ_cons]
      exact htl
    · by_cases hac : a = c
      · subst hac
        refine ⟨rest, ?_⟩
        simp only [lastIndexOfChar]
        rw [if_neg hr]
        simp
      · exfalso
        simp only [lastIndexOfChar] at h
        rw [if_neg hr, if_neg hac] at h
        omega

theorem drop_cons_lt_length {cs tl : List Char} {c : Char} {n : Nat}
    (h : cs.drop n = c :: tl) : n < cs.length := by
  by_contra hge
  push_neg at hge
  rw [List.drop_eq_nil_of_le hge] at h
  exact absurd h (by simp)

theorem skipWs_lbracket (t : List Char) : skipWs ('[' :: t) = '[' :: t := by
  have hws : isJsonWs '[' = false := by decide
  simp [skipWs, List.dropWhile_cons, hws]

theorem parseVal_lbracket (fuel : Nat) (t : List Char) (v : Json) (r : List Char)
    (h : parseVal fuel ('[' :: t) = some (v, r)) : ∃ l, v = .arr l := by
  match fuel with
  | 0 => simp [parseVal] at h
  | fuel + 1 =>
    have hred : parseVal (fuel + 1) ('[' :: t) =
        (match parseArrItems fuel t with
          | some (l, r) => some (.arr l, r)
          | none => none) := rfl
    rw [hred] at h
    cases hp : parseArrItems fuel t with
    | none => rw [hp] at h; simp at h
    | some p =>
      rw [hp] at h
      simp at h
      exact ⟨p.1, h.1.symm⟩

theorem jsonParseL_lbracket (t : List Char) (v : Json)
    (h : jsonParseL ('[' :: t) = some v) : ∃ l, v = .arr l := by
  unfold jsonParseL at h
  cases hpv : parseVal (jsonFuel ('[' :: t)) ('[' :: t) with
  | none => rw [hpv] at h; simp at h
  | some p =>
    rw [hpv] at h
    by_cases hrest : skipWs p.2 = []
    · simp only [hrest, if_pos] at h
      simp only [Option.some.injEq] at h
      obtain ⟨l, hl⟩ := parseVal_lbracket (jsonFuel ('[' :: t)) t p.1 p.2 (by
        rw [hpv])
      exact ⟨l, by rw [← h, hl]⟩
    · simp [hrest] at h

theorem jsonParseL_nil : jsonParseL [] = none := rfl

theorem jsonParseL_rbracket : jsonParseL [']'] = none := rfl

/-- Slicing from a found `[`: the slice is empty or starts with `[`. -/
theorem jsSlice_at_found_bracket (out : List Char) (e : Int)
    (h : 0 ≤ indexOfChar out '[') :
    jsSlice out (indexOfChar out '[') e = [] ∨
      ∃ t, jsSlice out (indexOfChar out '[') e = '[' :: t := by
  obtain ⟨tl, htl⟩ := indexOfChar_found out '[' h
  have hbound : (indexOfChar out '[').toNat < out.length := drop_cons_lt_length htl
  have hf : normIdx out.length (indexOfChar out '[') = (indexOfChar out '[').toNat := by
    unfold normIdx
    rw [if_neg (by omega)]
    exact min_eq_left (by omega)
  simp only [jsSlice]
  rw [hf, htl]
  cases hk : normIdx out.length e - (indexOfChar out '[').toNat with
  | zero =>
    left
    simp
  | succ m =>
    right
    exact ⟨tl.take m, by simp⟩

/-- Slicing when there is no `[` at all: the slice is `[]` or `"]"`, and
neither parses as JSON. -/
theorem jsonParseL_slice_no_bracket (out : List Char)
    (hno : indexOfChar out '[' = -1) :
    jsonParseL (jsSlice out (indexOfChar out '[')
      (lastIndexOfChar out ']' + 1)) = none := by
  rw [hno]
  have hf : normIdx out.length (-1) = out.length - 1 := by
    unfold normIdx
    rw [if_pos (by omega)]
    omega
  rcases lastIndexOfChar_cases out ']' with hj | hj
  · rw [hj]
    have ht : normIdx out.length (-1 + 1) = 0 := by
      unfold normIdx
      rw [if_neg (by omega)]
      simp
    simp only [jsSlice]
    rw [hf, ht]
    simp [jsonParseL_nil]
  · obtain ⟨tl, htl⟩ := lastIndexOfChar_found out ']' hj
    have hbound : (lastIndexOfChar out ']').toNat < out.length := drop_cons_lt_length htl
    have hlen : 1 ≤ out.length := by omega
    have ht : normIdx out.length (lastIndexOfChar out ']' + 1) =
        (lastIndexOfChar out ']').toNat + 1 := by
      unfold normIdx
      rw [if_neg (by omega)]
      have : (lastIndexOfChar out ']' + 1).toNat = (lastIndexOfChar out ']').toNat + 1 := by
        omega
      rw [this]
      exact min_eq_left (by omega)
    simp only [jsSlice]
    rw [hf, ht]
    by_cases hlast : (lastIndexOfChar out ']').toNat = out.length - 1
    · have hdrop : out.drop (out.length - 1) = [']'] := by
        rw [← hlast, htl]
        have hlentl : tl.length = 0 := by
          have := congrArg List.length htl
          simp at this
          omega
        rw [List.length_eq_zero] at hlentl
        rw [hlentl]
      rw [hdrop]
      have htake : (lastIndexOfChar out ']').toNat + 1 - (out.length - 1) = 1 := by
        omega
      rw [htake]
      simp [jsonParseL_rbracket]
    · have hlt : (lastIndexOfChar out ']').toNat + 1 - (out.length - 1) = 0 := by
        omega
      rw [hlt]
      simp [jsonParseL_nil]

/-- The follow-up branch of `sanitize` always produces a string that
`JSON.parse` accepts as an array: either the kept slice starts at the
first `[` (a successful parse of which must be an array), or parsing
failed and the literal `'[]'` is returned. -/
theorem followUpResult_isArray (out : List Char) :
    isJsonArrayString
      (match jsonParseL (jsSlice out (indexOfChar out '[')
          (lastIndexOfChar out ']' + 1)) with
        | some _ => String.mk (jsSlice out (indexOfChar out '[')
            (lastIndexOfChar out ']' + 1))
        | none => "[]") = true := by
  cases hp : jsonParseL (jsSlice out (indexOfChar out '[')
      (lastIndexOfChar out ']' + 1)) with
  | none =>
    simp only [hp]
    decide
  | some v =>
    simp only [hp]
    rcases indexOfChar_cases out '[' with hneg | hpos
    · exfalso
      have hnone := jsonParseL_slice_no_bracket out hneg
      rw [hnone] at hp
      exact Option.noConfusion hp
    · rcases jsSlice_at_found_bracket out (lastIndexOfChar out ']' + 1) hpos with
        hnil | ⟨t, ht⟩
      · exfalso
        rw [hnil, jsonParseL_nil] at hp
        exact Option.noConfusion hp
      · rw [ht] at hp
        obtain ⟨l, rfl⟩ := jsonParseL_lbracket t v hp
        unfold isJsonArrayString
        have hdata : (String.mk (jsSlice out (indexOfChar out '[')
            (lastIndexOfChar out ']' + 1))).data =
            jsSlice out (indexOfChar out '[') (lastIndexOfChar out ']' + 1) := rfl
        rw [hdata, ht, hp]

/-- Every output of `sanitize` for the follow-up kind parses as a JSON
array. -/
theorem sanitize_followUp_isArray (text : String) :
    isJsonArrayString (sanitize text .followUp) = true := by
  have h := followUpResult_isArray (jsTrim (stripFences text.data))
  simpa [sanitize] using h

/-- C4: every successful `generate(t, 'follow-up')` result parses as a
syntactically valid JSON array — `sanitize` slices from the first `[` to
the last `]` and keeps the slice only when `JSON.parse` accepts it,
degrading to the literal `'[]'` otherwise; in particular the non-JSON raw
body "sorry, I can't help" yields `'[]'`, and no parse error ever reaches
the caller (`sanitize` and `generate` are total). -/
theorem C4_followup_always_json_array :
    (∀ text : String, isJsonArrayString (sanitize text .followUp) = true) ∧
    (∀ (env : Nat → String → RemoteOutcome) (now : Nat) (st : Store) (topic r : String),
      storeGet st (ContentService.key topic .followUp) = none →
      (ContentService.generate env now st topic .followUp).out = .ok r →
      isJsonArrayString r = true) ∧
    sanitize "sorry, I can't help" .followUp = "[]" := by
  refine ⟨sanitize_followUp_isArray, ?_, by decide⟩
  intro env now st topic r hnone hok
  have hmiss : (CacheService.get TTL_MS now st (ContentService.key topic .followUp)).1 =
      none ∨
      (CacheService.get TTL_MS now st (ContentService.key topic .followUp)).1 = some "" := by
    left
    unfold CacheService.get
    rw [hnone]
  cases hres : (runBackOff
      (fun n => attemptCall (env n (ContentService.buildPrompt topic .followUp)))).result with
  | ok raw =>
    rw [generate_miss_ok env now st topic .followUp raw hmiss hres] at hok
    simp only [Except.ok.injEq] at hok
    rw [← hok]
    exact sanitize_followUp_isArray raw
  | error e =>
    rw [generate_miss_err env now st topic .followUp e hmiss hres] at hok
    simp at hok

/-- Witness for C4 at a concrete non-JSON remote response. -/
theorem C4_followup_always_json_array_witness :
    isJsonArrayString "[]" = true ∧
    (ContentService.generate (fun _ _ => .success [some "sorry, I can't help"])
      0 [] "t" .followUp).out = .ok "[]" := by
  constructor
  · exact C4_followup_always_json_array.2.1
      (fun _ _ => .success [some "sorry, I can't help"]) 0 [] "t" "[]" rfl (by rfl)
  · rfl
